import Mathlib

/-!
Shallow embedding of the redaction-classification and page-reconstruction
engine of `scripts/unredact.py` (functions `clean_vector_redactions`,
`process_file`, `run_operation`).  Geometry and colors use exact rationals;
image sample bytes use naturals on the 0-255 scale.
-/

namespace Unredact

/-- An axis-aligned rectangle, mirroring `fitz.Rect` (x0, y0, x1, y1). -/
structure Rect where
  x0 : ℚ
  y0 : ℚ
  x1 : ℚ
  y1 : ℚ
deriving DecidableEq, Repr

/-- `Rect.width` of the library: horizontal extent of the rectangle. -/
def Rect.width (r : Rect) : ℚ := r.x1 - r.x0

/-- `Rect.height` of the library: vertical extent of the rectangle. -/
def Rect.height (r : Rect) : ℚ := r.y1 - r.y0

/-- A rectangle is empty when it encloses no area (library convention). -/
def Rect.isEmptyRect (r : Rect) : Bool := decide (r.x1 ≤ r.x0) || decide (r.y1 ≤ r.y0)

/-- `fitz.Rect.intersects`: true when the two rectangles share a common
rectangle of positive area (false when either is empty). -/
def Rect.intersects (a b : Rect) : Bool :=
  !a.isEmptyRect && !b.isEmptyRect &&
    decide (max a.x0 b.x0 < min a.x1 b.x1) && decide (max a.y0 b.y0 < min a.y1 b.y1)

/-- A point, as passed to the drawing operators. -/
structure Point where
  x : ℚ
  y : ℚ
deriving DecidableEq, Repr

/-- A segment operation of a vector path, as found in `path["items"]`:
`"l"` line, `"re"` rectangle, `"qu"` quadrilateral, `"c"` cubic bezier. -/
inductive DrawItem where
  | line (p1 p2 : Point)
  | re (r : Rect)
  | qu (q1 q2 q3 q4 : Point)
  | curve (p1 p2 p3 p4 : Point)
deriving DecidableEq, Repr

/-- A vector path as returned by `page.get_drawings()`: optional fill and
stroke colors (channel values on the 0-1 scale), optional stroke width and
fill opacity, the bounding rectangle and the segment list. -/
structure DrawingPath where
  fill : Option (List ℚ)
  color : Option (List ℚ)
  width : Option ℚ
  fill_opacity : Option ℚ
  rect : Rect
  items : List DrawItem
deriving DecidableEq, Repr

/-- Python truthiness of an optional color tuple: `if fill_color:` holds
exactly when the value is present and the tuple is non-empty. -/
def colorTruthy (o : Option (List ℚ)) : Bool :=
  match o with
  | some (_ :: _) => true
  | _ => false

/-- The channel list of an optional color (empty when absent). -/
def channels (o : Option (List ℚ)) : List ℚ := o.getD []

/-- Which tally a removed vector path contributes to. -/
inductive VecTally where
  | blackV
  | whiteV
deriving DecidableEq, Repr

/-- The per-path decision of `clean_vector_redactions`: `some t` when the
path is classified a redaction (with its tally), `none` when it is kept.
The three rules are evaluated in source order, first match winning. -/
def classifyPath (p : DrawingPath) : Option VecTally :=
  if colorTruthy p.fill && (channels p.fill).all (fun c => decide (c < 1/20)) &&
      decide (p.rect.width > 5) && decide (p.rect.height > 5) then
    some .blackV
  else if colorTruthy p.color && (channels p.color).all (fun c => decide (c < 1/20)) &&
      decide (p.width.getD 0 > 10) then
    some .blackV
  else if colorTruthy p.fill && (channels p.fill).all (fun c => decide (c > 19/20)) &&
      decide (p.rect.width > 5) && decide (p.rect.height > 5) then
    some .whiteV
  else
    none

/-- `clean_vector_redactions(page)`: folds over the page's drawings,
keeping non-redaction paths and accumulating the black/white tallies and
the removed rectangles, in source order. -/
def clean_vector_redactions (drawings : List DrawingPath) :
    List DrawingPath × ℕ × ℕ × List Rect :=
  drawings.foldl
    (fun acc p =>
      match classifyPath p with
      | some .blackV => (acc.1, acc.2.1 + 1, acc.2.2.1, acc.2.2.2 ++ [p.rect])
      | some .whiteV => (acc.1, acc.2.1, acc.2.2.1 + 1, acc.2.2.2 ++ [p.rect])
      | none => (acc.1 ++ [p], acc.2.1, acc.2.2.1, acc.2.2.2))
    ([], 0, 0, [])

/-- An embedded image of the page, as seen by the image loop of
`process_file`: its placement rectangles (`page.get_image_rects(xref)`),
whether `fitz.Pixmap(doc, xref)` succeeds, the channel count of its
colorspace, its raw sample bytes and the sample bytes after conversion to
RGB (used when the channel count exceeds 3). -/
structure Image where
  rects : List Rect
  decodable : Bool
  n : ℕ
  samples : List ℕ
  rgbSamples : List ℕ
deriving DecidableEq, Repr

/-- Outcome of the per-image body of the loop in `process_file`. -/
inductive ImgOutcome where
  | skipped
  | inserted (r : Rect)
  | removedBlack (r : Rect)
  | removedWhite (r : Rect)
deriving DecidableEq, Repr

/-- The sample buffer the brightness is averaged over: converted to RGB
when the colorspace has more than 3 channels, the raw buffer otherwise. -/
def effPixels (img : Image) : List ℕ :=
  if img.n > 3 then img.rgbSamples else img.samples

/-- Mean sample value on the 0-255 scale, `sum(pixels)/len(pixels)`. -/
def avgBrightness (pixels : List ℕ) : ℚ := (pixels.sum : ℚ) / pixels.length

/-- The per-image body of the loop in `process_file`.  Only the first
placement rectangle is consulted; an image with no rectangle, a rectangle
of height at most 10, a failing decode, or an empty sample buffer under
classification (a division by zero caught by the blanket handler) is
dropped silently.  Brightness classification only runs when
`remove_bbox = 1`. -/
def processImage (remove_bbox : ℕ) (img : Image) : ImgOutcome :=
  match img.rects with
  | [] => .skipped
  | target :: _ =>
    if target.height > 10 then
      if img.decodable then
        if remove_bbox = 1 then
          let pixels := effPixels img
          if pixels.isEmpty then .skipped
          else if avgBrightness pixels < 15 then .removedBlack target
          else if avgBrightness pixels > 240 then .removedWhite target
          else .inserted target
        else .inserted target
      else .skipped
    else .skipped

/-- A text span of `page.get_text("dict")`: text, bounding box, origin
point, font size and intrinsic color (the latter never read by the code). -/
structure Span where
  text : String
  bbox : Rect
  origin : Point
  size : ℚ
  intrinsicColor : List ℚ
deriving DecidableEq, Repr

/-- A recovered-span record of the unredaction report: 1-based page
number, (stripped) text, bounding box. -/
structure RecoveredSpan where
  page : ℕ
  text : String
  bbox : Rect
deriving DecidableEq, Repr

/-- A text run re-emitted into the output page by `insert_text`. -/
structure OutText where
  origin : Point
  text : String
  size : ℚ
  color : List ℚ
deriving DecidableEq, Repr

/-- The whitespace characters removed by the `strip()` of the source. -/
def isPyWhitespace (c : Char) : Bool :=
  c = ' ' || c = '\t' || c = '\n' || c = '\r' || c = '\x0b' || c = '\x0c'

/-- `span["text"].strip()`: the text with leading and trailing whitespace
removed. -/
def pyStrip (s : String) : String :=
  ⟨((s.data.dropWhile isPyWhitespace).reverse.dropWhile isPyWhitespace).reverse⟩

/-- The covered test of the text loop: the span's bounding box intersects
some removed rectangle of the page (the loop breaks at the first hit). -/
def spanCovered (removed : List Rect) (sp : Span) : Bool :=
  removed.any fun r => sp.bbox.intersects r

/-- Color passed to `insert_text`: pure red when highlight mode is on and
the span was covered, pure black otherwise. -/
def spanColor (highlight : ℕ) (covered : Bool) : List ℚ :=
  if highlight = 1 ∧ covered = true then [1, 0, 0] else [0, 0, 0]

/-- The per-span body of the text loop of `process_file`: spans whose
stripped text is empty are ignored; otherwise the span is tested for
intersection against the removed rectangles, recorded (with stripped
text) when covered, and re-emitted with its original text. -/
def processSpan (highlight : ℕ) (removed : List Rect) (pageNo : ℕ) (sp : Span) :
    Option RecoveredSpan × Option OutText :=
  if pyStrip sp.text = "" then (none, none)
  else
    ((if spanCovered removed sp then some ⟨pageNo, pyStrip sp.text, sp.bbox⟩ else none),
     some ⟨sp.origin, sp.text, sp.size, spanColor highlight (spanCovered removed sp)⟩)

/-- A path as actually drawn onto the output page: the segments passed to
the shape and the style passed to `finish`. -/
structure DrawnPath where
  items : List DrawItem
  fill : Option (List ℚ)
  color : Option (List ℚ)
  width : ℚ
  fill_opacity : ℚ
deriving DecidableEq, Repr

/-- Redraw used when `remove_bbox = 1`: all four segment kinds are
re-issued and `finish` receives the path's fill, stroke color, width
(default 1) and fill opacity (default 1). -/
def redrawFull (p : DrawingPath) : DrawnPath :=
  { items := p.items
    fill := p.fill
    color := p.color
    width := p.width.getD 1
    fill_opacity := p.fill_opacity.getD 1 }

/-- Redraw used in pass-through mode (`remove_bbox ≠ 1`): only line and
rectangle segments are re-issued, and `finish` receives only fill and
stroke color, leaving width and fill opacity at their defaults. -/
def redrawPassthrough (p : DrawingPath) : DrawnPath :=
  { items := p.items.filter fun it =>
      match it with
      | .line _ _ => true
      | .re _ => true
      | _ => false
    fill := p.fill
    color := p.color
    width := 1
    fill_opacity := 1 }

/-- An input page: its rectangle, whether its content streams parse,
its markup-object count, and its images, drawings and text spans. -/
structure InPage where
  rect : Rect
  contentOk : Bool
  annots : ℕ
  images : List Image
  drawings : List DrawingPath
  spans : List Span
deriving DecidableEq, Repr

/-- An output page of the reconstructed document. -/
structure OutPage where
  width : ℚ
  height : ℚ
  images : List (Image × Rect)
  drawn : List DrawnPath
  texts : List OutText
deriving DecidableEq, Repr

/-- The per-document counters of `process_file`. -/
structure Stats where
  black_img : ℕ
  white_img : ℕ
  black_vec : ℕ
  white_vec : ℕ
  annots : ℕ
deriving DecidableEq, Repr

def Stats.zero : Stats := ⟨0, 0, 0, 0, 0⟩

def Stats.add (a b : Stats) : Stats :=
  ⟨a.black_img + b.black_img, a.white_img + b.white_img,
   a.black_vec + b.black_vec, a.white_vec + b.white_vec, a.annots + b.annots⟩

/-- Result of processing one page. -/
structure PageResult where
  out : OutPage
  removed : List Rect
  spans : List RecoveredSpan
  stats : Stats
deriving DecidableEq, Repr

/-- The image loop of `process_file` over a page's image list: collects the
inserted images, the removed rectangles and the black/white image tallies,
in source order. -/
def foldImages (remove_bbox : ℕ) (imgs : List Image) :
    List (Image × Rect) × List Rect × ℕ × ℕ :=
  imgs.foldl
    (fun acc img =>
      match processImage remove_bbox img with
      | .skipped => acc
      | .inserted r => (acc.1 ++ [(img, r)], acc.2.1, acc.2.2.1, acc.2.2.2)
      | .removedBlack r => (acc.1, acc.2.1 ++ [r], acc.2.2.1 + 1, acc.2.2.2)
      | .removedWhite r => (acc.1, acc.2.1 ++ [r], acc.2.2.1, acc.2.2.2 + 1))
    ([], [], 0, 0)

/-- The per-page body of the loop of `process_file` (for a page whose
content parses): strips markup objects when `remove_bbox = 1`, creates the
output page with the input page's dimensions, runs the image loop, the
drawing stage (classification and full redraw when `remove_bbox = 1`,
pass-through redraw otherwise) and the text loop. -/
def process_page (remove_bbox highlight : ℕ) (pageNo : ℕ) (pg : InPage) : PageResult :=
  let annotsDel := if remove_bbox = 1 then pg.annots else 0
  let imgRes := foldImages remove_bbox pg.images
  let drawRes :=
    if remove_bbox = 1 then
      let c := clean_vector_redactions pg.drawings
      (c.1.map redrawFull, c.2.1, c.2.2.1, c.2.2.2)
    else
      (pg.drawings.map redrawPassthrough, 0, 0, ([] : List Rect))
  let removed := imgRes.2.1 ++ drawRes.2.2.2
  let spanRes := pg.spans.map (processSpan highlight removed pageNo)
  { out :=
      { width := pg.rect.width
        height := pg.rect.height
        images := imgRes.1
        drawn := drawRes.1
        texts := spanRes.filterMap Prod.snd }
    removed := removed
    spans := spanRes.filterMap Prod.fst
    stats :=
      { black_img := imgRes.2.2.1
        white_img := imgRes.2.2.2
        black_vec := drawRes.2.1
        white_vec := drawRes.2.2.1
        annots := annotsDel } }

/-- Result of successfully processing one document. -/
structure DocResult where
  pages : List OutPage
  stats : Stats
  spans : List RecoveredSpan
deriving DecidableEq, Repr

/-- The page loop of `process_file`, carrying the 0-based page index.  A
page whose content does not parse raises, and the exception escapes the
loop to the document-level handler: the whole document yields `none`. -/
def processPages (remove_bbox highlight : ℕ) : ℕ → List InPage → Option DocResult
  | _, [] => some ⟨[], Stats.zero, []⟩
  | i, pg :: rest =>
    if pg.contentOk then
      let pr := process_page remove_bbox highlight (i + 1) pg
      match processPages remove_bbox highlight (i + 1) rest with
      | none => none
      | some res => some ⟨pr.out :: res.pages, pr.stats.add res.stats, pr.spans ++ res.spans⟩
    else none

/-- `process_file`: `none` models the `except` branch returning `None`
(container fails to open, or any page raises).  The input is `none` when
`fitz.open` itself fails. -/
def process_file (doc : Option (List InPage)) (remove_bbox highlight : ℕ) :
    Option DocResult :=
  match doc with
  | none => none
  | some pages => processPages remove_bbox highlight 0 pages

/-- `run_operation` over a batch: each document is processed independently
and failed documents (`None` results) are dropped from the log. -/
def run_operation (docs : List (Option (List InPage))) (remove_bbox highlight : ℕ) :
    List DocResult :=
  docs.filterMap (fun d => process_file d remove_bbox highlight)

/-! Rules of the drawing classifier as propositions, mirroring the three
guards of `clean_vector_redactions` in source order. -/

/-- Rule 1: fill present, every fill channel below 0.05, bounding
rectangle wider and taller than 5. -/
def ruleBlackFill (p : DrawingPath) : Prop :=
  colorTruthy p.fill = true ∧ (∀ c ∈ channels p.fill, c < 1/20) ∧
    p.rect.width > 5 ∧ p.rect.height > 5

/-- Rule 2: stroke color present, every stroke channel below 0.05,
stroke width above 10 (width defaulting to 0 when absent). -/
def ruleBlackStroke (p : DrawingPath) : Prop :=
  colorTruthy p.color = true ∧ (∀ c ∈ channels p.color, c < 1/20) ∧
    p.width.getD 0 > 10

/-- Rule 3: fill present, every fill channel above 0.95, bounding
rectangle wider and taller than 5. -/
def ruleWhiteFill (p : DrawingPath) : Prop :=
  colorTruthy p.fill = true ∧ (∀ c ∈ channels p.fill, c > 19/20) ∧
    p.rect.width > 5 ∧ p.rect.height > 5

lemma ruleBlackFill_iff (p : DrawingPath) :
    (colorTruthy p.fill && (channels p.fill).all (fun c => decide (c < 1/20)) &&
      decide (p.rect.width > 5) && decide (p.rect.height > 5)) = true ↔ ruleBlackFill p := by
  simp [ruleBlackFill, List.all_eq_true, and_assoc]

lemma ruleBlackStroke_iff (p : DrawingPath) :
    (colorTruthy p.color && (channels p.color).all (fun c => decide (c < 1/20)) &&
      decide (p.width.getD 0 > 10)) = true ↔ ruleBlackStroke p := by
  simp [ruleBlackStroke, List.all_eq_true, and_assoc]

lemma ruleWhiteFill_iff (p : DrawingPath) :
    (colorTruthy p.fill && (channels p.fill).all (fun c => decide (c > 19/20)) &&
      decide (p.rect.width > 5) && decide (p.rect.height > 5)) = true ↔ ruleWhiteFill p := by
  simp [ruleWhiteFill, List.all_eq_true, and_assoc]

instance (p : DrawingPath) : Decidable (ruleBlackFill p) :=
  decidable_of_iff _ (ruleBlackFill_iff p)

instance (p : DrawingPath) : Decidable (ruleBlackStroke p) :=
  decidable_of_iff _ (ruleBlackStroke_iff p)

instance (p : DrawingPath) : Decidable (ruleWhiteFill p) :=
  decidable_of_iff _ (ruleWhiteFill_iff p)

lemma classifyPath_rule1 (p : DrawingPath) (h : ruleBlackFill p) :
    classifyPath p = some VecTally.blackV := by
  unfold classifyPath
  rw [if_pos ((ruleBlackFill_iff p).mpr h)]

lemma classifyPath_rule2 (p : DrawingPath) (h1 : ¬ ruleBlackFill p)
    (h2 : ruleBlackStroke p) : classifyPath p = some VecTally.blackV := by
  unfold classifyPath
  rw [if_neg (fun hh => h1 ((ruleBlackFill_iff p).mp hh)),
    if_pos ((ruleBlackStroke_iff p).mpr h2)]

lemma classifyPath_rule3 (p : DrawingPath) (h1 : ¬ ruleBlackFill p)
    (h2 : ¬ ruleBlackStroke p) (h3 : ruleWhiteFill p) :
    classifyPath p = some VecTally.whiteV := by
  unfold classifyPath
  rw [if_neg (fun hh => h1 ((ruleBlackFill_iff p).mp hh)),
    if_neg (fun hh => h2 ((ruleBlackStroke_iff p).mp hh)),
    if_pos ((ruleWhiteFill_iff p).mpr h3)]

lemma classifyPath_keep (p : DrawingPath) (h1 : ¬ ruleBlackFill p)
    (h2 : ¬ ruleBlackStroke p) (h3 : ¬ ruleWhiteFill p) : classifyPath p = none := by
  unfold classifyPath
  rw [if_neg (fun hh => h1 ((ruleBlackFill_iff p).mp hh)),
    if_neg (fun hh => h2 ((ruleBlackStroke_iff p).mp hh)),
    if_neg (fun hh => h3 ((ruleWhiteFill_iff p).mp hh))]

/-- Appending one path to the drawing list advances the accumulator of
`clean_vector_redactions` by exactly its own classification. -/
lemma clean_vector_redactions_snoc (ds : List DrawingPath) (p : DrawingPath) :
    clean_vector_redactions (ds ++ [p]) =
      match classifyPath p with
      | some VecTally.blackV =>
          ((clean_vector_redactions ds).1, (clean_vector_redactions ds).2.1 + 1,
           (clean_vector_redactions ds).2.2.1, (clean_vector_redactions ds).2.2.2 ++ [p.rect])
      | some VecTally.whiteV =>
          ((clean_vector_redactions ds).1, (clean_vector_redactions ds).2.1,
           (clean_vector_redactions ds).2.2.1 + 1, (clean_vector_redactions ds).2.2.2 ++ [p.rect])
      | none =>
          ((clean_vector_redactions ds).1 ++ [p], (clean_vector_redactions ds).2.1,
           (clean_vector_redactions ds).2.2.1, (clean_vector_redactions ds).2.2.2) := by
  unfold clean_vector_redactions
  rw [List.foldl_append]
  rfl

unseal Rat.add Rat.sub Rat.mul Rat.inv in
/-- C1 counterexample: a path whose only fill channel is 0.5 (inside
[0.05, 0.95]) but which carries a near-black stroke of width 20 is
classified a redaction by the stroke rule and increments the black-vector
tally, contradicting the claim that any fill channel in [0.05, 0.95]
forces `keep` with no tally change. -/
theorem c1_counterexample :
    (1 : ℚ)/20 ≤ 1/2 ∧ (1 : ℚ)/2 ≤ 19/20 ∧
    classifyPath ⟨some [1/2], some [0], some 20, none, ⟨0, 0, 100, 100⟩, []⟩ =
      some VecTally.blackV ∧
    clean_vector_redactions [⟨some [1/2], some [0], some 20, none, ⟨0, 0, 100, 100⟩, []⟩] =
      ([], 1, 0, [⟨0, 0, 100, 100⟩]) := by
  decide

/-- C1 (amended): the drawing classifier evaluates its three rules in
order with first match winning — near-black fill on a large rectangle and
near-black thick stroke tally black-vector, near-white fill on a large
rectangle tallies white-vector, anything else is kept with no tally
change — and a fill channel in [0.05, 0.95] forces `keep` provided the
near-black-stroke rule does not itself fire. -/
theorem c1_drawing_classifier (p : DrawingPath) (ds : List DrawingPath) :
    (ruleBlackFill p → classifyPath p = some VecTally.blackV) ∧
    (¬ ruleBlackFill p → ruleBlackStroke p → classifyPath p = some VecTally.blackV) ∧
    (¬ ruleBlackFill p → ¬ ruleBlackStroke p → ruleWhiteFill p →
      classifyPath p = some VecTally.whiteV) ∧
    (¬ ruleBlackFill p → ¬ ruleBlackStroke p → ¬ ruleWhiteFill p → classifyPath p = none) ∧
    ((∃ c ∈ channels p.fill, 1/20 ≤ c ∧ c ≤ 19/20) → ¬ ruleBlackStroke p →
      classifyPath p = none) ∧
    ((clean_vector_redactions (ds ++ [p])).2.1 =
      (clean_vector_redactions ds).2.1 +
        (if classifyPath p = some VecTally.blackV then 1 else 0)) ∧
    ((clean_vector_redactions (ds ++ [p])).2.2.1 =
      (clean_vector_redactions ds).2.2.1 +
        (if classifyPath p = some VecTally.whiteV then 1 else 0)) ∧
    (classifyPath p = none →
      (clean_vector_redactions (ds ++ [p])).1 = (clean_vector_redactions ds).1 ++ [p] ∧
      (clean_vector_redactions (ds ++ [p])).2.2.2 = (clean_vector_redactions ds).2.2.2) :=
  by
  refine ⟨classifyPath_rule1 p, classifyPath_rule2 p, classifyPath_rule3 p,
    classifyPath_keep p, ?_, ?_, ?_, ?_⟩
  · rintro ⟨c, hc, hlo, hhi⟩ hstroke
    have h1 : ¬ ruleBlackFill p := by
      rintro ⟨-, hall, -, -⟩
      exact absurd (hall c hc) (not_lt.mpr hlo)
    have h3 : ¬ ruleWhiteFill p := by
      rintro ⟨-, hall, -, -⟩
      exact absurd (hall c hc) (not_lt.mpr hhi)
    exact classifyPath_keep p h1 hstroke h3
  · rw [clean_vector_redactions_snoc]
    rcases h : classifyPath p with - | t
    · simp [h]
    · cases t <;> simp [h]
  · rw [clean_vector_redactions_snoc]
    rcases h : classifyPath p with - | t
    · simp [h]
    · cases t <;> simp [h]
  · intro h
    rw [clean_vector_redactions_snoc, h]
    exact ⟨rfl, rfl⟩

unseal Rat.add Rat.sub Rat.mul Rat.inv in
/-- C1 witness: the amended theorem applied to a concrete near-black
filled 100 by 100 rectangle, classified black-vector. -/
theorem c1_witness :
    classifyPath ⟨some [0, 0, 0], none, none, none, ⟨0, 0, 100, 100⟩, []⟩ =
      some VecTally.blackV :=
  (c1_drawing_classifier ⟨some [0, 0, 0], none, none, none, ⟨0, 0, 100, 100⟩, []⟩ []).1
    (by decide)

/-- A document containing any page whose content does not parse yields
`none` as a whole, whatever index the loop starts at. -/
lemma processPages_none_of_bad (b h : ℕ) :
    ∀ (pages : List InPage), (∃ pg ∈ pages, pg.contentOk = false) →
      ∀ i, processPages b h i pages = none := by
  intro pages
  induction pages with
  | nil =>
    rintro ⟨pg, hmem, -⟩
    exact absurd hmem (List.not_mem_nil pg)
  | cons pg rest ih =>
    rintro ⟨q, hq, hq2⟩ i
    rcases List.mem_cons.mp hq with rfl | hq'
    · simp [processPages, hq2]
    · by_cases hc : pg.contentOk = true
      · simp [processPages, hc, ih ⟨q, hq', hq2⟩ (i + 1)]
      · simp [processPages, hc]

/-- A successfully processed document has one output page per input page,
with the input page's width and height. -/
lemma processPages_dims (b h : ℕ) :
    ∀ (pages : List InPage) (i : ℕ) (res : DocResult),
      processPages b h i pages = some res →
      res.pages.length = pages.length ∧
      ∀ j (hj : j < pages.length) (hr : j < res.pages.length),
        (res.pages.get ⟨j, hr⟩).width = (pages.get ⟨j, hj⟩).rect.width ∧
        (res.pages.get ⟨j, hr⟩).height = (pages.get ⟨j, hj⟩).rect.height := by
  intro pages
  induction pages with
  | nil =>
    intro i res hres
    simp only [processPages, Option.some.injEq] at hres
    subst hres
    exact ⟨rfl, fun j hj => absurd hj (Nat.not_lt_zero j)⟩
  | cons pg rest ih =>
    intro i res hres
    by_cases hc : pg.contentOk = true
    · rw [processPages, if_pos hc] at hres
      cases hrec : processPages b h (i + 1) rest with
      | none => rw [hrec] at hres; cases hres
      | some r2 =>
        rw [hrec] at hres
        obtain ⟨hlen, hdim⟩ := ih (i + 1) r2 hrec
        cases hres
        refine ⟨by simpa using hlen, ?_⟩
        intro j hj hr
        cases j with
        | zero => exact ⟨rfl, rfl⟩
        | succ j =>
          exact hdim j (Nat.lt_of_succ_lt_succ hj)
            (by simpa using Nat.lt_of_succ_lt_succ hr)
    · rw [processPages, if_neg hc] at hres
      cases hres

unseal Rat.add Rat.sub Rat.mul Rat.inv in
/-- C2 counterexample: a two-page document whose second page has a
malformed content stream produces no output document at all — there is no
reconstructed document with a blank same-size page at that index, the
whole document is abandoned. -/
theorem c2_counterexample :
    process_file (some [⟨⟨0, 0, 612, 792⟩, true, 0, [], [], []⟩,
      ⟨⟨0, 0, 612, 792⟩, false, 0, [], [], []⟩]) 1 1 = none := by
  decide

/-- C2 (amended): a malformed page aborts processing of the whole
document — the per-document handler catches the failure and yields no
output document, rather than raising — while a successfully processed
document keeps every page's width and height, and a batch run processes
every document independently, so the remaining documents of a batch are
still processed. -/
theorem c2_document_failure (b h : ℕ) (pages : List InPage)
    (d : Option (List InPage)) (pre post : List (Option (List InPage))) :
    ((∃ pg ∈ pages, pg.contentOk = false) → process_file (some pages) b h = none) ∧
    (∀ res, process_file (some pages) b h = some res →
      res.pages.length = pages.length ∧
      ∀ j (hj : j < pages.length) (hr : j < res.pages.length),
        (res.pages.get ⟨j, hr⟩).width = (pages.get ⟨j, hj⟩).rect.width ∧
        (res.pages.get ⟨j, hr⟩).height = (pages.get ⟨j, hj⟩).rect.height) ∧
    (run_operation (pre ++ d :: post) b h =
      run_operation pre b h ++ (process_file d b h).toList ++ run_operation post b h) := by
  refine ⟨fun hbad => processPages_none_of_bad b h pages hbad 0,
    fun res hres => processPages_dims b h pages 0 res hres, ?_⟩
  unfold run_operation
  rw [List.filterMap_append, List.filterMap_cons]
  cases process_file d b h <;> simp

unseal Rat.add Rat.sub Rat.mul Rat.inv in
/-- C2 witness: the amended theorem applied to a one-page document whose
page is malformed. -/
theorem c2_witness :
    process_file (some [⟨⟨0, 0, 10, 10⟩, false, 0, [], [], []⟩]) 1 1 = none :=
  (c2_document_failure 1 1 [⟨⟨0, 0, 10, 10⟩, false, 0, [], [], []⟩] none [] []).1
    ⟨⟨⟨0, 0, 10, 10⟩, false, 0, [], [], []⟩, by decide⟩

/-- The image loop over a single image, by the image's own outcome. -/
lemma foldImages_singleton (b : ℕ) (img : Image) :
    foldImages b [img] =
      match processImage b img with
      | ImgOutcome.skipped => ([], [], 0, 0)
      | ImgOutcome.inserted r => ([(img, r)], [], 0, 0)
      | ImgOutcome.removedBlack r => ([], [r], 1, 0)
      | ImgOutcome.removedWhite r => ([], [r], 0, 1) := by
  cases h : processImage b img <;> simp [foldImages, h]

/-- The image-derived fields of a page result project onto the image
loop's accumulator. -/
lemma process_page_images_proj (b h n : ℕ) (pg : InPage) :
    (process_page b h n pg).out.images = (foldImages b pg.images).1 ∧
    (process_page b h n pg).stats.black_img = (foldImages b pg.images).2.2.1 ∧
    (process_page b h n pg).stats.white_img = (foldImages b pg.images).2.2.2 :=
  ⟨rfl, rfl, rfl⟩

/-- On a page with no drawings, the removed regions are exactly the image
loop's removed rectangles, and the vector tallies are zero. -/
lemma process_page_no_drawings (b h n : ℕ) (pg : InPage) (hd : pg.drawings = []) :
    (process_page b h n pg).removed = (foldImages b pg.images).2.1 ∧
    (process_page b h n pg).out.drawn = [] ∧
    (process_page b h n pg).stats.black_vec = 0 ∧
    (process_page b h n pg).stats.white_vec = 0 := by
  by_cases hb : b = 1 <;>
    simp [process_page, hb, hd, clean_vector_redactions]

unseal Rat.add Rat.sub Rat.mul Rat.inv in
/-- C3 counterexample: an image whose only placement rectangle has height
exactly 10 is not copied into the output page — the output page's image
list is empty, against the keep-contract the claim invokes — though it
indeed produces no removed region. -/
theorem c3_counterexample :
    (process_page 1 1 1 ⟨⟨0, 0, 612, 792⟩, true, 0,
        [⟨[⟨0, 0, 100, 10⟩], true, 1, [200, 200], [200, 200]⟩], [], []⟩).out.images = [] ∧
    (process_page 1 1 1 ⟨⟨0, 0, 612, 792⟩, true, 0,
        [⟨[⟨0, 0, 100, 10⟩], true, 1, [200, 200], [200, 200]⟩], [], []⟩).removed = [] := by
  decide

/-- C3 (amended): a placement whose first rectangle has height at most 10
(height exactly 10 included) undergoes no classification — no removed
region, no tally — but instead of being kept it is dropped entirely: the
image is not copied into the output page. -/
theorem c3_thin_image (b h n : ℕ) (img : Image) (t : Rect) (rs : List Rect)
    (pg : InPage) (hrects : img.rects = t :: rs) (hh : t.height ≤ 10) :
    processImage b img = ImgOutcome.skipped ∧
    (pg.images = [img] → pg.drawings = [] →
      (process_page b h n pg).out.images = [] ∧
      (process_page b h n pg).removed = [] ∧
      (process_page b h n pg).stats.black_img = 0 ∧
      (process_page b h n pg).stats.white_img = 0) := by
  have hskip : processImage b img = ImgOutcome.skipped := by
    simp only [processImage, hrects]
    rw [if_neg (not_lt.mpr hh)]
  refine ⟨hskip, fun h1 h2 => ?_⟩
  obtain ⟨e1, e2, e3⟩ := process_page_images_proj b h n pg
  obtain ⟨e4, -, -, -⟩ := process_page_no_drawings b h n pg h2
  rw [e1, e2, e3, e4, h1, foldImages_singleton, hskip]
  exact ⟨rfl, rfl, rfl, rfl⟩

unseal Rat.add Rat.sub Rat.mul Rat.inv in
/-- C3 witness: the amended theorem applied to a concrete 100 by 10
placement, which is skipped. -/
theorem c3_witness :
    processImage 1 ⟨[⟨0, 0, 100, 10⟩], true, 1, [200, 200], [200, 200]⟩ =
      ImgOutcome.skipped :=
  (c3_thin_image 1 1 1 ⟨[⟨0, 0, 100, 10⟩], true, 1, [200, 200], [200, 200]⟩
    ⟨0, 0, 100, 10⟩ [] ⟨⟨0, 0, 612, 792⟩, true, 0, [], [], []⟩ rfl (by decide)).1

/-- C4: an eligible placement (first rectangle taller than 10, decodable,
non-empty sample buffer) is classified by the mean sample brightness of
its effective pixel buffer — the RGB conversion when the image has more
than 3 channels — on the 0-255 scale: mean below 15 removes it with the
black-image tally, mean above 240 removes it with the white-image tally,
and a mean strictly between 15 and 240 keeps it, with no tally change and
the image inserted into the output page at that rectangle. -/
theorem c4_raster_brightness (h n : ℕ) (img : Image) (t : Rect) (rs : List Rect)
    (pg : InPage) (hrects : img.rects = t :: rs) (hh : t.height > 10)
    (hdec : img.decodable = true) (hne : effPixels img ≠ []) :
    (avgBrightness (effPixels img) < 15 →
      processImage 1 img = ImgOutcome.removedBlack t) ∧
    (avgBrightness (effPixels img) > 240 →
      processImage 1 img = ImgOutcome.removedWhite t) ∧
    (15 < avgBrightness (effPixels img) → avgBrightness (effPixels img) < 240 →
      processImage 1 img = ImgOutcome.inserted t) ∧
    (pg.images = [img] →
      ((process_page 1 h n pg).stats.black_img =
        if avgBrightness (effPixels img) < 15 then 1 else 0) ∧
      ((process_page 1 h n pg).stats.white_img =
        if avgBrightness (effPixels img) > 240 then 1 else 0) ∧
      (15 < avgBrightness (effPixels img) → avgBrightness (effPixels img) < 240 →
        (process_page 1 h n pg).out.images = [(img, t)])) := by
  have hne' : (effPixels img).isEmpty = false := by
    cases hp : effPixels img
    · exact absurd hp hne
    · rfl
  have key : processImage 1 img =
      (if avgBrightness (effPixels img) < 15 then ImgOutcome.removedBlack t
       else if avgBrightness (effPixels img) > 240 then ImgOutcome.removedWhite t
       else ImgOutcome.inserted t) := by
    simp only [processImage, hrects]
    rw [if_pos hh]
    simp [hdec, hne']
  have k1 : avgBrightness (effPixels img) < 15 →
      processImage 1 img = ImgOutcome.removedBlack t := by
    intro hlt
    rw [key, if_pos hlt]
  have k2 : avgBrightness (effPixels img) > 240 →
      processImage 1 img = ImgOutcome.removedWhite t := by
    intro hgt
    have h15 : ¬ avgBrightness (effPixels img) < 15 := by
      have : (15 : ℚ) < avgBrightness (effPixels img) := lt_trans (by norm_num) hgt
      exact not_lt.mpr this.le
    rw [key, if_neg h15, if_pos hgt]
  have k3 : 15 < avgBrightness (effPixels img) → avgBrightness (effPixels img) < 240 →
      processImage 1 img = ImgOutcome.inserted t := by
    intro ha hb
    rw [key, if_neg (not_lt.mpr ha.le), if_neg (not_lt.mpr hb.le)]
  refine ⟨k1, k2, k3, fun himg => ?_⟩
  obtain ⟨e1, e2, e3⟩ := process_page_images_proj 1 h n pg
  rw [e1, e2, e3, himg, foldImages_singleton, key]
  by_cases h1 : avgBrightness (effPixels img) < 15
  · have h2 : ¬ avgBrightness (effPixels img) > 240 := by
      intro hgt
      exact absurd (lt_trans hgt h1) (by norm_num)
    simp [h1, h2]
    intro ha
    exact (lt_irrefl _ (lt_trans ha h1)).elim
  · by_cases h2 : avgBrightness (effPixels img) > 240
    · simp [h1, h2]
      intro ha
      exact h2.le
    · simp [h1, h2]

unseal Rat.add Rat.sub Rat.mul Rat.inv in
/-- C4 witness: a decodable 3-channel image with samples 1, 2, 3 (mean 2)
in a 100 by 50 rectangle is removed with the black-image tally. -/
theorem c4_witness :
    processImage 1 ⟨[⟨0, 0, 100, 50⟩], true, 3, [1, 2, 3], []⟩ =
      ImgOutcome.removedBlack ⟨0, 0, 100, 50⟩ :=
  (c4_raster_brightness 1 1 ⟨[⟨0, 0, 100, 50⟩], true, 3, [1, 2, 3], []⟩
    ⟨0, 0, 100, 50⟩ [] ⟨⟨0, 0, 612, 792⟩, true, 0, [], [], []⟩ rfl (by decide) rfl
    (by decide)).1 (by decide)

/-- The output text runs of a page are the defined second components of
the per-span results, in span order. -/
lemma process_page_texts_eq (b h n : ℕ) (pg : InPage) :
    (process_page b h n pg).out.texts =
      pg.spans.filterMap
        (fun sp => (processSpan h ((process_page b h n pg).removed) n sp).2) := by
  show (pg.spans.map (processSpan h _ n)).filterMap Prod.snd = _
  rw [List.filterMap_map]
  rfl

/-- The recovered spans of a page are the defined first components of the
per-span results, in span order. -/
lemma process_page_spans_eq (b h n : ℕ) (pg : InPage) :
    (process_page b h n pg).spans =
      pg.spans.filterMap
        (fun sp => (processSpan h ((process_page b h n pg).removed) n sp).1) := by
  show (pg.spans.map (processSpan h _ n)).filterMap Prod.fst = _
  rw [List.filterMap_map]
  rfl

lemma length_filterMap_eq_countP {α β : Type} (f : α → Option β) (l : List α) :
    (l.filterMap f).length = l.countP (fun a => (f a).isSome) := by
  induction l with
  | nil => rfl
  | cons a l ih =>
    cases h : f a <;> simp [List.filterMap_cons, h, List.countP_cons, ih]

unseal Rat.add Rat.sub Rat.mul Rat.inv in
/-- C5 counterexample: a page whose only text span is the whitespace-only
string " " re-emits nothing — the span is omitted from the output page,
against the claim that no TextRun is omitted. -/
theorem c5_counterexample :
    (process_page 1 1 1 ⟨⟨0, 0, 612, 792⟩, true, 0, [], [],
        [⟨" ", ⟨10, 10, 50, 20⟩, ⟨10, 20⟩, 12, [0, 0, 1]⟩]⟩).out.texts = [] := by
  decide

/-- C5 (amended): every text span whose text is non-empty after stripping
whitespace is re-emitted into the output page with its text content,
origin and font size unchanged (only the rendered color may differ);
spans that strip to the empty string are omitted from the output. -/
theorem c5_text_preserved (b h n : ℕ) (pg : InPage) (sp : Span)
    (hmem : sp ∈ pg.spans) (hne : pyStrip sp.text ≠ "") :
    ∃ ot ∈ (process_page b h n pg).out.texts,
      ot.text = sp.text ∧ ot.origin = sp.origin ∧ ot.size = sp.size := by
  have hc : (processSpan h ((process_page b h n pg).removed) n sp).2 =
      some ⟨sp.origin, sp.text, sp.size,
        spanColor h (spanCovered ((process_page b h n pg).removed) sp)⟩ := by
    unfold processSpan
    rw [if_neg hne]
  refine ⟨⟨sp.origin, sp.text, sp.size,
    spanColor h (spanCovered ((process_page b h n pg).removed) sp)⟩, ?_, rfl, rfl, rfl⟩
  rw [process_page_texts_eq]
  exact List.mem_filterMap.mpr ⟨sp, hmem, hc⟩

unseal Rat.add Rat.sub Rat.mul Rat.inv in
/-- C5 witness: the amended theorem applied to a page with the single
span "SECRET". -/
theorem c5_witness :
    ∃ ot ∈ (process_page 1 1 1 ⟨⟨0, 0, 612, 792⟩, true, 0, [], [],
        [⟨"SECRET", ⟨20, 15, 90, 25⟩, ⟨20, 25⟩, 12, [0, 0, 1]⟩]⟩).out.texts,
      ot.text = "SECRET" ∧ ot.origin = ⟨20, 25⟩ ∧ ot.size = 12 :=
  c5_text_preserved 1 1 1 ⟨⟨0, 0, 612, 792⟩, true, 0, [], [],
      [⟨"SECRET", ⟨20, 15, 90, 25⟩, ⟨20, 25⟩, 12, [0, 0, 1]⟩]⟩
    ⟨"SECRET", ⟨20, 15, 90, 25⟩, ⟨20, 25⟩, 12, [0, 0, 1]⟩ (by decide) (by decide)

unseal Rat.add Rat.sub Rat.mul Rat.inv in
/-- C6 counterexample: a whitespace-only span whose bounding box
intersects a removed region produces no RecoveredSpan, against the claim
that every TextRun intersecting a RemovedRegion is emitted. -/
theorem c6_counterexample :
    Rect.intersects ⟨10, 10, 50, 20⟩ ⟨0, 0, 100, 100⟩ = true ∧
    (process_page 1 1 1 ⟨⟨0, 0, 612, 792⟩, true, 0, [],
        [⟨some [0, 0, 0], none, none, none, ⟨0, 0, 100, 100⟩, []⟩],
        [⟨" ", ⟨10, 10, 50, 20⟩, ⟨10, 20⟩, 12, [0, 0, 1]⟩]⟩).removed =
      [⟨0, 0, 100, 100⟩] ∧
    (process_page 1 1 1 ⟨⟨0, 0, 612, 792⟩, true, 0, [],
        [⟨some [0, 0, 0], none, none, none, ⟨0, 0, 100, 100⟩, []⟩],
        [⟨" ", ⟨10, 10, 50, 20⟩, ⟨10, 20⟩, 12, [0, 0, 1]⟩]⟩).spans = [] := by
  decide

/-- C6 (amended): for a span whose stripped text is non-empty, a
RecoveredSpan is emitted if and only if its bounding box intersects at
least one removed region (containment not required), at most once per
span even when several regions intersect it; spans that strip to the
empty string never emit, and per page the number of RecoveredSpans equals
the number of spans passing this test. -/
theorem c6_span_correlation (b h n : ℕ) (removed : List Rect) (sp : Span)
    (pg : InPage) :
    ((processSpan h removed n sp).1.isSome = true ↔
      pyStrip sp.text ≠ "" ∧ ∃ r ∈ removed, sp.bbox.intersects r = true) ∧
    (∀ rs, (processSpan h removed n sp).1 = some rs →
      rs = ⟨n, pyStrip sp.text, sp.bbox⟩) ∧
    ((process_page b h n pg).spans.length =
      pg.spans.countP (fun s => !(pyStrip s.text == "") &&
        spanCovered ((process_page b h n pg).removed) s)) := by
  have hany : ∀ s : Span, spanCovered removed s = true ↔
      ∃ r ∈ removed, s.bbox.intersects r = true := by
    intro s
    unfold spanCovered
    rw [List.any_eq_true]
  refine ⟨?_, ?_, ?_⟩
  · by_cases ht : pyStrip sp.text = ""
    · simp [processSpan, ht]
    · by_cases hcov : spanCovered removed sp = true
      · simp [processSpan, ht, hcov]
        exact (hany sp).mp hcov
      · simp [processSpan, ht, hcov]
        intro r hr
        cases hb : sp.bbox.intersects r
        · rfl
        · exact absurd ((hany sp).mpr ⟨r, hr, hb⟩) hcov
  · intro rs hrs
    by_cases ht : pyStrip sp.text = ""
    · simp [processSpan, ht] at hrs
    · by_cases hcov : spanCovered removed sp = true
      · simp [processSpan, ht, hcov] at hrs
        exact hrs.symm
      · simp [processSpan, ht, hcov] at hrs
  · rw [process_page_spans_eq, length_filterMap_eq_countP]
    refine List.countP_congr ?_
    intro s hs
    by_cases ht : pyStrip s.text = ""
    · simp [processSpan, ht]
    · by_cases hcov : spanCovered ((process_page b h n pg).removed) s = true
      · simp [processSpan, ht, hcov]
      · simp [processSpan, ht, hcov]

unseal Rat.add Rat.sub Rat.mul Rat.inv in
/-- C6 witness: the amended theorem applied to the spec's own example, a
span at bounding box with corners 20 15 90 25 against the removed region
with corners 0 0 100 100, which emits a RecoveredSpan. -/
theorem c6_witness :
    (processSpan 1 [⟨0, 0, 100, 100⟩] 1
        ⟨"SECRET", ⟨20, 15, 90, 25⟩, ⟨20, 25⟩, 12, [0, 0, 1]⟩).1.isSome = true :=
  (c6_span_correlation 1 1 1 [⟨0, 0, 100, 100⟩]
      ⟨"SECRET", ⟨20, 15, 90, 25⟩, ⟨20, 25⟩, 12, [0, 0, 1]⟩
      ⟨⟨0, 0, 612, 792⟩, true, 0, [], [], []⟩).1.mpr
    ⟨by decide, ⟨0, 0, 100, 100⟩, by decide, by decide⟩

unseal Rat.add Rat.sub Rat.mul Rat.inv in
/-- C7 counterexample: a placement whose pixel data cannot be decoded is
not copied into the output page — it vanishes instead of being kept — and
nothing is counted anywhere: all statistics stay zero, so the failure is
silently dropped rather than logged or counted. -/
theorem c7_counterexample :
    (process_page 1 1 1 ⟨⟨0, 0, 612, 792⟩, true, 0,
        [⟨[⟨0, 0, 100, 50⟩], false, 3, [1], [1]⟩], [], []⟩).out.images = [] ∧
    (process_page 1 1 1 ⟨⟨0, 0, 612, 792⟩, true, 0,
        [⟨[⟨0, 0, 100, 50⟩], false, 3, [1], [1]⟩], [], []⟩).stats = ⟨0, 0, 0, 0, 0⟩ ∧
    (process_file (some [⟨⟨0, 0, 612, 792⟩, true, 0,
        [⟨[⟨0, 0, 100, 50⟩], false, 3, [1], [1]⟩], [], []⟩]) 1 1).isSome = true := by
  decide

/-- C7 (amended): a placement whose pixel data cannot be decoded is
abandoned without classification — it contributes no removed region and
no tally — and the failure is not propagated as fatal to the page or
document; but instead of being treated as keep it is omitted from the
output page, silently (no log, no count). -/
theorem c7_undecodable_image (b h n : ℕ) (img : Image) (pg : InPage)
    (hd : img.decodable = false) :
    processImage b img = ImgOutcome.skipped ∧
    (pg.images = [img] → pg.drawings = [] → pg.contentOk = true →
      (process_page b h n pg).out.images = [] ∧
      (process_page b h n pg).removed = [] ∧
      (process_page b h n pg).stats.black_img = 0 ∧
      (process_page b h n pg).stats.white_img = 0 ∧
      (process_file (some [pg]) b h).isSome = true) := by
  have hskip : processImage b img = ImgOutcome.skipped := by
    rcases hr : img.rects with - | ⟨t, rs⟩ <;> simp [processImage, hr, hd]
  refine ⟨hskip, fun h1 h2 h3 => ?_⟩
  obtain ⟨e1, e2, e3⟩ := process_page_images_proj b h n pg
  obtain ⟨e4, -, -, -⟩ := process_page_no_drawings b h n pg h2
  rw [e1, e2, e3, e4, h1, foldImages_singleton, hskip]
  exact ⟨rfl, rfl, rfl, rfl, by simp [process_file, processPages, h3]⟩

unseal Rat.add Rat.sub Rat.mul Rat.inv in
/-- C7 witness: the amended theorem applied to a concrete undecodable
placement, which is skipped. -/
theorem c7_witness :
    processImage 1 ⟨[⟨0, 0, 100, 50⟩], false, 3, [1], [1]⟩ = ImgOutcome.skipped :=
  (c7_undecodable_image 1 1 1 ⟨[⟨0, 0, 100, 50⟩], false, 3, [1], [1]⟩
    ⟨⟨0, 0, 612, 792⟩, true, 0, [], [], []⟩ rfl).1

/-- In pass-through mode the per-image body never classifies: every image
is either dropped (no rectangle, thin, undecodable) or re-inserted at its
first rectangle. -/
lemma processImage_passthrough (b : ℕ) (hb : b ≠ 1) (img : Image) :
    processImage b img = ImgOutcome.skipped ∨
      ∃ t rs, img.rects = t :: rs ∧ processImage b img = ImgOutcome.inserted t := by
  rcases hr : img.rects with - | ⟨t, rs⟩
  · left
    simp [processImage, hr]
  · by_cases hh : t.height > 10
    · by_cases hdec : img.decodable = true
      · right
        exact ⟨t, rs, rfl, by simp [processImage, hr, hh, hdec, hb]⟩
      · left
        simp [processImage, hr, hh, hdec]
    · left
      simp [processImage, hr, hh]

/-- In pass-through mode the image loop accumulates no removed rectangle
and no tally. -/
lemma foldImages_passthrough (b : ℕ) (hb : b ≠ 1) (imgs : List Image) :
    (foldImages b imgs).2 = ([], 0, 0) := by
  unfold foldImages
  suffices h : ∀ acc : List (Image × Rect) × List Rect × ℕ × ℕ,
      (imgs.foldl (fun acc img =>
        match processImage b img with
        | ImgOutcome.skipped => acc
        | ImgOutcome.inserted r => (acc.1 ++ [(img, r)], acc.2.1, acc.2.2.1, acc.2.2.2)
        | ImgOutcome.removedBlack r => (acc.1, acc.2.1 ++ [r], acc.2.2.1 + 1, acc.2.2.2)
        | ImgOutcome.removedWhite r => (acc.1, acc.2.1 ++ [r], acc.2.2.1, acc.2.2.2 + 1))
        acc).2 = acc.2 by
    exact h ([], [], 0, 0)
  induction imgs with
  | nil => intro acc; rfl
  | cons img rest ih =>
    intro acc
    rw [List.foldl_cons]
    rcases processImage_passthrough b hb img with hskip | ⟨t, rs, -, hins⟩
    · rw [hskip]
      exact ih _
    · rw [hins]
      exact ih _

unseal Rat.add Rat.sub Rat.mul Rat.inv in
/-- C8 counterexample: in pass-through mode a path whose only segment is
a quadrilateral is redrawn with an empty segment list and with default
width 1 and opacity 1 instead of its stroke width 2 and opacity 0.5, and
a thin (height 8) image placement is not re-inserted — the document is
altered, against the claim that pass-through re-renders without altering
anything. -/
theorem c8_counterexample :
    (process_page 0 0 1 ⟨⟨0, 0, 612, 792⟩, true, 3,
        [⟨[⟨0, 0, 100, 8⟩], true, 1, [200], [200]⟩],
        [⟨none, some [0, 0, 1], some 2, some (1/2), ⟨0, 0, 50, 50⟩,
          [DrawItem.qu ⟨0, 0⟩ ⟨10, 0⟩ ⟨10, 10⟩ ⟨0, 10⟩]⟩], []⟩).out.drawn =
      [⟨[], none, some [0, 0, 1], 1, 1⟩] ∧
    (process_page 0 0 1 ⟨⟨0, 0, 612, 792⟩, true, 3,
        [⟨[⟨0, 0, 100, 8⟩], true, 1, [200], [200]⟩],
        [⟨none, some [0, 0, 1], some 2, some (1/2), ⟨0, 0, 50, 50⟩,
          [DrawItem.qu ⟨0, 0⟩ ⟨10, 0⟩ ⟨10, 10⟩ ⟨0, 10⟩]⟩], []⟩).out.images = [] := by
  decide

/-- C8 (amended): when redaction-removal mode is disabled no annotation
is deleted, no classification occurs and no region is removed (all
statistics zero), but the re-render is lossy: each path is redrawn
keeping only its line and rectangle segments — quadrilateral and
cubic-curve segments are dropped — with its fill and stroke color but
default width 1 and opacity 1, and each image placement is re-inserted
only when its first rectangle is taller than 10 and its pixel data
decodes. -/
theorem c8_passthrough (b h n : ℕ) (pg : InPage) (hb : b ≠ 1) :
    (process_page b h n pg).stats = Stats.zero ∧
    (process_page b h n pg).removed = [] ∧
    (process_page b h n pg).out.drawn = pg.drawings.map redrawPassthrough ∧
    (∀ p : DrawingPath, redrawPassthrough p =
      ⟨p.items.filter (fun it => match it with
          | DrawItem.line _ _ => true
          | DrawItem.re _ => true
          | _ => false),
        p.fill, p.color, 1, 1⟩) ∧
    (∀ img ∈ pg.images, processImage b img = ImgOutcome.skipped ∨
      ∃ t rs, img.rects = t :: rs ∧ processImage b img = ImgOutcome.inserted t) := by
  have hfold := foldImages_passthrough b hb pg.images
  refine ⟨?_, ?_, ?_, fun p => rfl, fun img _ => processImage_passthrough b hb img⟩
  · simp [process_page, hb, Stats.zero, hfold]
  · simp [process_page, hb, hfold]
  · simp [process_page, hb]

unseal Rat.add Rat.sub Rat.mul Rat.inv in
/-- C8 witness: the amended theorem applied to a concrete page in
pass-through mode, whose statistics are all zero. -/
theorem c8_witness :
    (process_page 0 0 1 ⟨⟨0, 0, 612, 792⟩, true, 3,
        [⟨[⟨0, 0, 100, 8⟩], true, 1, [200], [200]⟩],
        [⟨none, some [0, 0, 1], some 2, some (1/2), ⟨0, 0, 50, 50⟩,
          [DrawItem.qu ⟨0, 0⟩ ⟨10, 0⟩ ⟨10, 10⟩ ⟨0, 10⟩]⟩], []⟩).stats = Stats.zero :=
  (c8_passthrough 0 0 1 ⟨⟨0, 0, 612, 792⟩, true, 3,
      [⟨[⟨0, 0, 100, 8⟩], true, 1, [200], [200]⟩],
      [⟨none, some [0, 0, 1], some 2, some (1/2), ⟨0, 0, 50, 50⟩,
        [DrawItem.qu ⟨0, 0⟩ ⟨10, 0⟩ ⟨10, 10⟩ ⟨0, 10⟩]⟩], []⟩ (by decide)).1

/-- C9: every text run re-emitted into an output page is rendered in
exactly one of two colors — pure red when highlight mode is on and the
span was covered by a removed region, pure black in every other case —
so the input span's intrinsic color is never carried into the output,
whatever the mode. -/
theorem c9_output_text_colors (b h n : ℕ) (pg : InPage) :
    (∀ (removed : List Rect) (m : ℕ) (sp : Span) (ot : OutText),
      (processSpan h removed m sp).2 = some ot →
      ot.color = spanColor h (spanCovered removed sp)) ∧
    (∀ (highlight : ℕ) (covered : Bool), spanColor highlight covered =
      if highlight = 1 ∧ covered = true then [(1 : ℚ), 0, 0] else [(0 : ℚ), 0, 0]) ∧
    (∀ ot ∈ (process_page b h n pg).out.texts,
      ot.color = [(1 : ℚ), 0, 0] ∨ ot.color = [(0 : ℚ), 0, 0]) := by
  have hcol : ∀ (removed : List Rect) (m : ℕ) (sp : Span) (ot : OutText),
      (processSpan h removed m sp).2 = some ot →
      ot.color = spanColor h (spanCovered removed sp) := by
    intro removed m sp ot hot
    by_cases ht : pyStrip sp.text = ""
    · simp [processSpan, ht] at hot
    · simp [processSpan, ht] at hot
      rw [← hot]
  refine ⟨hcol, fun highlight covered => rfl, ?_⟩
  intro ot hmem
  rw [process_page_texts_eq] at hmem
  obtain ⟨sp, -, hot⟩ := List.mem_filterMap.mp hmem
  rw [hcol _ _ _ _ hot]
  unfold spanColor
  by_cases hc : h = 1 ∧ spanCovered ((process_page b h n pg).removed) sp = true
  · rw [if_pos hc]
    left
    rfl
  · rw [if_neg hc]
    right
    rfl

unseal Rat.add Rat.sub Rat.mul Rat.inv in
/-- C9 witness: the theorem applied to a concrete page whose single span
is uncovered, so it is re-emitted in pure black. -/
theorem c9_witness :
    (⟨⟨20, 25⟩, "SECRET", 12, [(0 : ℚ), 0, 0]⟩ : OutText).color = [(1 : ℚ), 0, 0] ∨
    (⟨⟨20, 25⟩, "SECRET", 12, [(0 : ℚ), 0, 0]⟩ : OutText).color = [(0 : ℚ), 0, 0] :=
  (c9_output_text_colors 1 1 1 ⟨⟨0, 0, 612, 792⟩, true, 0, [], [],
      [⟨"SECRET", ⟨20, 15, 90, 25⟩, ⟨20, 25⟩, 12, [0, 0, 1]⟩]⟩).2.2
    ⟨⟨20, 25⟩, "SECRET", 12, [(0 : ℚ), 0, 0]⟩ (by decide)

/-- C10: only an embedded image's first placement rectangle is ever
consulted — classification behaves exactly as if that single rectangle
were the whole placement list, any inserted/removed rectangle is the
first one, an image with no placement rectangle is dropped entirely, and
a page carrying one image inserts at most one copy of it. -/
theorem c10_first_placement_only (b h n : ℕ) (img : Image) (pg : InPage) :
    (img.rects = [] → processImage b img = ImgOutcome.skipped) ∧
    (∀ t rs, img.rects = t :: rs →
      processImage b img =
        processImage b ⟨[t], img.decodable, img.n, img.samples, img.rgbSamples⟩ ∧
      (∀ r, processImage b img = ImgOutcome.inserted r ∨
          processImage b img = ImgOutcome.removedBlack r ∨
          processImage b img = ImgOutcome.removedWhite r → r = t)) ∧
    (pg.images = [img] → (process_page b h n pg).out.images.length ≤ 1) := by
  refine ⟨fun hr => by simp [processImage, hr], fun t rs hr => ⟨?_, ?_⟩, fun h1 => ?_⟩
  · show (match img.rects with
      | [] => ImgOutcome.skipped
      | target :: _ =>
        if target.height > 10 then
          if img.decodable then
            if b = 1 then
              if (effPixels img).isEmpty then ImgOutcome.skipped
              else if avgBrightness (effPixels img) < 15 then ImgOutcome.removedBlack target
              else if avgBrightness (effPixels img) > 240 then ImgOutcome.removedWhite target
              else ImgOutcome.inserted target
            else ImgOutcome.inserted target
          else ImgOutcome.skipped
        else ImgOutcome.skipped) = _
    rw [hr]
    rfl
  · intro r hcase
    have hred : processImage b img =
        (if t.height > 10 then
          if img.decodable then
            if b = 1 then
              if (effPixels img).isEmpty then ImgOutcome.skipped
              else if avgBrightness (effPixels img) < 15 then ImgOutcome.removedBlack t
              else if avgBrightness (effPixels img) > 240 then ImgOutcome.removedWhite t
              else ImgOutcome.inserted t
            else ImgOutcome.inserted t
          else ImgOutcome.skipped
        else ImgOutcome.skipped) := by
      show (match img.rects with
        | [] => ImgOutcome.skipped
        | target :: _ =>
          if target.height > 10 then
            if img.decodable then
              if b = 1 then
                if (effPixels img).isEmpty then ImgOutcome.skipped
                else if avgBrightness (effPixels img) < 15 then ImgOutcome.removedBlack target
                else if avgBrightness (effPixels img) > 240 then ImgOutcome.removedWhite target
                else ImgOutcome.inserted target
              else ImgOutcome.inserted target
            else ImgOutcome.skipped
          else ImgOutcome.skipped) = _
      rw [hr]
    rcases hcase with hc | hc | hc <;>
      (rw [hred] at hc; split_ifs at hc <;> simp_all)
  · obtain ⟨e1, -, -⟩ := process_page_images_proj b h n pg
    rw [e1, h1, foldImages_singleton]
    cases processImage b img <;> simp

unseal Rat.add Rat.sub Rat.mul Rat.inv in
/-- C10 witness: an image placed at two rectangles classifies exactly as
if it carried only the first, and is inserted there. -/
theorem c10_witness :
    processImage 1 ⟨[⟨0, 0, 100, 50⟩, ⟨200, 200, 300, 300⟩], true, 1, [100], [100]⟩ =
      processImage 1 ⟨[⟨0, 0, 100, 50⟩], true, 1, [100], [100]⟩ :=
  ((c10_first_placement_only 1 1 1
      ⟨[⟨0, 0, 100, 50⟩, ⟨200, 200, 300, 300⟩], true, 1, [100], [100]⟩
      ⟨⟨0, 0, 612, 792⟩, true, 0, [], [], []⟩).2.1
    ⟨0, 0, 100, 50⟩ [⟨200, 200, 300, 300⟩] rfl).1

end Unredact
